import Mathlib

/-!
Verification development for the vibesdk V1 API layer and its generation
orchestrator interface.

The definitions below are a shallow embedding of the TypeScript source:
* `worker/middleware/auth/apiKeyAuth.ts` (API-key authentication middleware),
* `worker/api/controllers/v1/projectsController.ts` (createProject, getProject),
* `worker/api/controllers/v1/usersController.ts` (getUserById, createApiKey).

Awaited external services (database lookups, rate limiter, template
selection, agent stub) are modelled as oracle inputs: each embedded handler
takes the outcome of every awaited call as an explicit argument and returns
the HTTP-level response together with the list of orchestrator operations it
issued.  A `ServiceResult.err` input models the corresponding `await`
throwing, which the controllers catch in their outer try/catch.
-/

namespace VibeSDK

/-- Outcome of one awaited external service call: either a value or a thrown
exception (caught by the controller's try/catch). -/
inductive ServiceResult (α : Type) where
  | ok (v : α)
  | err
  deriving Repr, DecidableEq

/-- The authenticated user attached to the request context
(`AuthUser` in `worker/types/auth-types`). -/
structure AuthUser where
  id : String
  email : String
  displayName : String
  emailVerified : Bool
  deriving Repr, DecidableEq

/-- A user row as returned by `UserService.findUser` (nullable display name
and avatar, as in the database schema). -/
structure DbUser where
  id : String
  email : String
  displayName : Option String
  avatarUrl : Option String
  emailVerified : Bool
  deriving Repr, DecidableEq

/-- An API-key row (`ApiKey` in the database schema).  `expired` abstracts
the check `keyRecord.expiresAt && new Date(keyRecord.expiresAt) < new Date()`
at the moment the middleware runs. -/
structure ApiKeyRecord where
  id : String
  userId : String
  name : String
  keyHash : String
  keyPreview : String
  scopes : String
  isActive : Bool
  expired : Bool
  deriving Repr, DecidableEq

/-- The external stores the middleware consults: SHA-256 hashing, the
API-key table keyed by hash, and the user table keyed by id. -/
structure AuthStore where
  hash : String → String
  findApiKeyByHash : String → Option ApiKeyRecord
  findUser : String → Option DbUser

/-- Result of `apiKeyAuthMiddleware`: either an error `Response` (status and
message) short-circuiting the request, or `undefined` meaning the request
proceeds with `user` and `apiKey` set on the context. -/
inductive AuthOutcome where
  | reject (status : Nat) (msg : String)
  | proceed (user : AuthUser) (key : ApiKeyRecord)
  deriving Repr, DecidableEq

/-- Embeds `authHeader.match(/^Bearer (.+)$/)`: the header must start with
`Bearer `, and the remainder is the key; `.` in the JS regex does not match
line terminators, and `+` requires at least one character. -/
def bearerToken (h : String) : Option String :=
  let rest := h.drop 7
  if h.take 7 = "Bearer " ∧ rest ≠ "" ∧ (∀ c ∈ rest.data, c ≠ '\n' ∧ c ≠ '\r')
  then some rest else none

/-- The hardcoded test key in `apiKeyAuth.ts` line 29. -/
def HARDCODED_TEST_KEY : String := "vsk_test_hardcoded_key_12345678901234567890"

/-- The mock user set by the middleware for the hardcoded test key. -/
def testAuthUser : AuthUser :=
  { id := "test-user-id"
  , email := "test@example.com"
  , displayName := "Test User"
  , emailVerified := true }

/-- The mock API-key record set by the middleware for the hardcoded test key
(date fields omitted; `requestCount`/timestamps are not part of the model). -/
def mockApiKeyRecord : ApiKeyRecord :=
  { id := "test-key-id"
  , userId := "test-user-id"
  , name := "Hardcoded Test Key"
  , keyHash := "test-hash"
  , keyPreview := "vsk_test_hardcoded..."
  , scopes := "[\"*\"]"
  , isActive := true
  , expired := false }

/-- The database-validation tail of the middleware (`apiKeyAuth.ts` lines
56–102): hash the key, look it up, check expiry, load the user, attach both
to the context. -/
def validateKeyViaStore (store : AuthStore) (apiKey : String) : AuthOutcome :=
  match store.findApiKeyByHash (store.hash apiKey) with
  | none => .reject 401 "Invalid API key"
  | some keyRecord =>
    if keyRecord.expired then .reject 401 "API key expired"
    else
      match store.findUser keyRecord.userId with
      | none => .reject 401 "User not found"
      | some user =>
        .proceed
          { id := user.id
          , email := user.email
          , displayName := (user.displayName.getD user.email)
          , emailVerified := user.emailVerified }
          keyRecord

/-- Dispatch on the extracted bearer key (`apiKeyAuth.ts` lines 21–54): a
malformed header is rejected; the hardcoded test key proceeds with the mock
user and key without touching the store; any other key is validated through
the store. -/
def keyOfBearer (store : AuthStore) : Option String → AuthOutcome
  | none =>
    .reject 401 "Invalid Authorization header format. Expected: Bearer <api_key>"
  | some apiKey =>
    if apiKey = HARDCODED_TEST_KEY then .proceed testAuthUser mockApiKeyRecord
    else validateKeyViaStore store apiKey

/-- Embeds `apiKeyAuthMiddleware` (`apiKeyAuth.ts`): require the header, extract
the bearer key, dispatch. -/
def apiKeyAuthMiddleware (store : AuthStore) (authHeader : Option String) :
    AuthOutcome :=
  match authHeader with
  | none => .reject 401 "API key required. Use: Authorization: Bearer <api_key>"
  | some h => keyOfBearer store (bearerToken h)

/-! ## V1 projects controller (`projectsController.ts`) -/

/-- The operations the API layer can invoke on the per-project orchestrator
stub (the query surface of §6 of the spec). -/
inductive OrchCall where
  | initializeOp
  | isInitialized
  | getFullState
  | getPreviewUrlCache
  | requestStop
  | requestResume
  deriving Repr, DecidableEq

/-- A controller-level API response: `createSuccessResponse` or
`createErrorResponse (message, status)`. -/
inductive ApiResponse (α : Type) where
  | success (data : α)
  | error (msg : String) (status : Nat)
  deriving Repr, DecidableEq

/-- The parsed request URL (`new URL(request.url)`): `secure` is whether
`url.protocol === 'https:'`; `host` includes the port. -/
structure RequestUrl where
  secure : Bool
  host : String
  hostname : String
  port : String
  deriving Repr, DecidableEq

/-- Embeds `url.origin`. -/
def RequestUrl.origin (u : RequestUrl) : String :=
  (if u.secure then "https:" else "http:") ++ "//" ++ u.host

/-- Body of POST /api/v1/projects.  A missing or empty `userId` or
`instructions` is modelled as `""` (both are falsy in the JS check). -/
structure CreateProjectRequestBody where
  userId : String
  instructions : String
  language : Option String
  frameworks : Option (List String)
  deriving Repr, DecidableEq

/-- Result of `getTemplateForQuery`. -/
structure TemplateInfo where
  templateName : String
  reasoning : String
  sandboxSessionId : String
  deriving Repr, DecidableEq

/-- Outcome of the background generation that `initialize` starts.  The
controller never awaits it, so the embedded handler receives it but must not
let it influence the response. -/
inductive GenOutcome where
  | completed
  | failed (reason : String)
  deriving Repr, DecidableEq

/-- Oracle inputs for one `createProject` execution: the parse result of the
body (`none` = parse failure), the user table, the authenticated API-key
user (`context.user!`), and the outcome of each awaited service call. -/
structure CreateEnv where
  body : Option CreateProjectRequestBody
  findUser : String → Option DbUser
  apiKeyUser : AuthUser
  rateLimit : ServiceResult Unit
  modelConfigs : ServiceResult Unit
  templateQuery : ServiceResult TemplateInfo
  agentStub : ServiceResult Unit
  genOutcome : GenOutcome
  url : RequestUrl

/-- The success body of `createProject`. -/
structure CreateProjectResponse where
  projectId : String
  status : String
  websocketUrl : String
  statusUrl : String
  templateName : String
  templateReasoning : String
  deriving Repr, DecidableEq

/-- Embeds `${url.protocol === 'https:' ? 'wss:' : 'ws:'}//${url.host}/api/agent/${projectId}/ws` -/
def websocketUrlOf (u : RequestUrl) (projectId : String) : String :=
  (if u.secure then "wss:" else "ws:") ++ "//" ++ u.host ++ "/api/agent/"
    ++ projectId ++ "/ws"

/-- Embeds `${url.origin}/api/v1/projects/${projectId}` -/
def statusUrlOf (u : RequestUrl) (projectId : String) : String :=
  u.origin ++ "/api/v1/projects/" ++ projectId

/-- Embeds `V1ProjectsController.createProject`, with `projectId` the value produced
by `generateId()`.  Returns the response together with the list of
orchestrator-stub operations issued; `initialize` is issued without `await`,
so no `ServiceResult` exists for it and `env.genOutcome` is never consulted. -/
def createProject (env : CreateEnv) (projectId : String) :
    ApiResponse CreateProjectResponse × List OrchCall :=
  match env.body with
  | none => (.error "Invalid JSON body" 400, [])
  | some b =>
    if b.userId = "" ∨ b.instructions = "" then
      (.error "userId and instructions are required" 400, [])
    else
      match env.findUser b.userId with
      | none => (.error "User not found" 404, [])
      | some _user =>
        if env.apiKeyUser.id ≠ b.userId then
          (.error "API key can only create projects for its own user" 403, [])
        else
          match env.rateLimit with
          | .err => (.error "Failed to create project" 500, [])
          | .ok _ =>
            match env.modelConfigs with
            | .err => (.error "Failed to create project" 500, [])
            | .ok _ =>
              match env.templateQuery with
              | .err => (.error "Failed to create project" 500, [])
              | .ok tmpl =>
                match env.agentStub with
                | .err => (.error "Failed to create project" 500, [])
                | .ok _ =>
                  (.success
                    { projectId := projectId
                    , status := "generating"
                    , websocketUrl := websocketUrlOf env.url projectId
                    , statusUrl := statusUrlOf env.url projectId
                    , templateName := tmpl.templateName
                    , templateReasoning := tmpl.reasoning }
                  , [.initializeOp])

/-- One phase of the blueprint, as read by the progress computation
(`phase.files.length`). -/
structure PhaseSpec where
  name : String
  files : List String
  deriving Repr, DecidableEq

/-- The blueprint inside `CodeGenState`. -/
structure BlueprintSpec where
  phases : List PhaseSpec
  deriving Repr, DecidableEq

/-- The slice of the agent's `CodeGenState` that `getProject` reads:
`state.blueprint?.phases`, `state.generatedFilesMap` (only its key set
matters) and `state.currentDevState` (stringified). -/
structure CodeGenState where
  blueprint : Option BlueprintSpec
  generatedFilesMap : List String
  currentDevState : String
  deriving Repr, DecidableEq

/-- Embeds `state.blueprint?.phases?.reduce((sum, phase) => sum + phase.files.length, 0) || 0` -/
def totalFilesOf (st : CodeGenState) : Nat :=
  match st.blueprint with
  | none => 0
  | some bp => (bp.phases.map fun p => p.files.length).sum

/-- Embeds `Object.keys(state.generatedFilesMap).length` -/
def filesGeneratedOf (st : CodeGenState) : Nat :=
  st.generatedFilesMap.length

/-! ### Exact binary64 model of the progress percentage

The source computes `Math.round((filesGenerated / totalFiles) * 100)` in
IEEE-754 binary64, so the division and the multiplication each round to
nearest (ties to even) at 53 bits of precision, and `Math.round` then takes
the integer nearest the exact value of its argument, ties toward `+∞`
(the ECMAScript definition — not `floor(x + 0.5)` in doubles).  The model
below performs the same computation exactly over `Nat`/`Int`: a nonzero
binary64 datum is a mantissa in `[2^52, 2^53)` times a power of two.  The
exponent is unbounded, which agrees with binary64 on the whole realizable
domain (counts below `2^53`, far from overflow and subnormals). -/

/-- Fuel-bounded binary logarithm: `log2f fuel n` equals `⌊log₂ n⌋` for
`1 ≤ n < 2^fuel`.  Fuel 128 covers every quantity this model manipulates:
inputs and mantissas stay below `2^53` and mantissa products below
`2^106`. -/
def log2f : Nat → Nat → Nat
  | 0, _ => 0
  | fuel + 1, n => if 2 ≤ n then log2f fuel (n / 2) + 1 else 0

/-- Whether `2^e ≤ a / b`, decided in integer arithmetic. -/
def pow2le (e : ℤ) (a b : ℕ) : Bool :=
  if 0 ≤ e then decide (b * 2 ^ e.toNat ≤ a)
  else decide (b ≤ a * 2 ^ (-e).toNat)

/-- Binary exponent of `a / b` — the largest `e` with `2^e ≤ a / b` — for
positive `a`, `b` below `2^128`. -/
def ratLog2 (a b : ℕ) : ℤ :=
  let e0 : ℤ := (log2f 128 a : ℤ) - (log2f 128 b : ℤ)
  if pow2le e0 a b then e0 else e0 - 1

/-- Round `a / b` to the nearest integer, ties to even. -/
def rne (a b : ℕ) : ℕ :=
  let q := a / b
  let r := a % b
  if 2 * r < b then q
  else if b < 2 * r then q + 1
  else if q % 2 = 0 then q else q + 1

/-- A binary64 value `m * 2^e`; nonzero finite values keep
`2^52 ≤ m < 2^53`, zero is `m = 0`. -/
structure F64 where
  m : ℕ
  e : ℤ
  deriving Repr, DecidableEq

/-- The exact rational value of a binary64 datum. -/
def F64.val (x : F64) : ℚ := (x.m : ℚ) * (2 : ℚ) ^ x.e

/-- Round the positive rational `a / b` to binary64 (nearest, ties to
even): scale the quotient into `[2^52, 2^53)`, round the mantissa, and
renormalize when rounding overflows to `2^53`. -/
def floatDivPos (a b : ℕ) : F64 :=
  let E := ratLog2 a b
  let m := if E ≤ 52 then rne (a * 2 ^ (52 - E).toNat) b
           else rne a (b * 2 ^ (E - 52).toNat)
  if m = 2 ^ 53 then ⟨2 ^ 52, E - 51⟩ else ⟨m, E - 52⟩

/-- The binary64 value of a natural number (the array counts and the
literal 100 in the source; exact below `2^53`). -/
def floatOfNat (n : ℕ) : F64 :=
  if n = 0 then ⟨0, 0⟩ else floatDivPos n 1

/-- Correctly rounded binary64 division (nonzero divisor). -/
def floatDiv (x y : F64) : F64 :=
  if x.m = 0 then ⟨0, 0⟩
  else
    let d := floatDivPos x.m y.m
    ⟨d.m, d.e + x.e - y.e⟩

/-- Correctly rounded binary64 multiplication: the exact mantissa product
is rounded back to 53 bits. -/
def floatMul (x y : F64) : F64 :=
  if x.m = 0 ∨ y.m = 0 then ⟨0, 0⟩
  else
    let p := floatDivPos (x.m * y.m) 1
    ⟨p.m, p.e + x.e + y.e⟩

/-- `Math.round` on a nonnegative binary64 value: the integer nearest the
exact value `m / 2^s`, ties toward `+∞`, as `⌊(2m + 2^s) / (2·2^s)⌋`. -/
def f64RoundHalfUp (x : F64) : ℕ :=
  if 0 ≤ x.e then x.m * 2 ^ x.e.toNat
  else (2 * x.m + 2 ^ (-x.e).toNat) / (2 * 2 ^ (-x.e).toNat)

/-- The binary64 evaluation of `(filesGenerated / totalFiles) * 100`. -/
def jsPercentF64 (fg tf : ℕ) : F64 :=
  floatMul (floatDiv (floatOfNat fg) (floatOfNat tf)) (floatOfNat 100)

/-- Embeds `totalFiles > 0 ? Math.round((filesGenerated / totalFiles) * 100) : 0`
with the arithmetic performed in binary64 exactly as the source does. -/
def percentCompleteOf (st : CodeGenState) : Nat :=
  if 0 < totalFilesOf st then
    f64RoundHalfUp (jsPercentF64 (filesGeneratedOf st) (totalFilesOf st))
  else 0

/-- The `progress` object `getProject` builds from live agent state. -/
structure Progress where
  currentPhase : String
  filesGenerated : Nat
  totalFiles : Nat
  percentComplete : Nat
  deriving Repr, DecidableEq

def progressOf (st : CodeGenState) : Progress :=
  { currentPhase := st.currentDevState
  , filesGenerated := filesGeneratedOf st
  , totalFiles := totalFilesOf st
  , percentComplete := percentCompleteOf st }

/-- An app row as returned by `AppService.getAppDetails`. -/
structure AppRecord where
  id : String
  userId : Option String
  title : String
  description : Option String
  status : String
  deploymentId : Option String
  visibility : String
  framework : Option String
  createdAt : Option String
  updatedAt : Option String
  deriving Repr, DecidableEq

/-- How the orchestrator/preview lookup inside `getProject`'s inner
try/catch unfolds, in the order the source awaits the calls:
`getAgentStub`, `isInitialized`, `getFullState`, `getPreviewUrlCache`. -/
inductive AgentLookup where
  | noStub
  | notInitialized
  | stateError
  | previewError (st : CodeGenState)
  | ok (st : CodeGenState) (preview : Option String)
  deriving Repr, DecidableEq

/-- Oracle inputs for one `getProject` execution. -/
structure GetEnv where
  projectId : String
  getAppDetails : ServiceResult (Option AppRecord)
  apiKeyUser : AuthUser
  agent : AgentLookup
  customDomain : String

/-- The success body of `getProject`. -/
structure GetProjectResponse where
  id : String
  userId : String
  title : String
  description : Option String
  status : String
  previewUrl : Option String
  productionUrl : Option String
  progress : Option Progress
  createdAt : Option String
  completedAt : Option String
  visibility : String
  framework : Option String
  deriving Repr, DecidableEq

/-- The inner try/catch of `getProject` (lines 247–272): returns the
`previewUrl` and `progress` it leaves behind, plus the orchestrator-stub
operations it issued before succeeding or throwing. -/
def agentProgressLookup : AgentLookup →
    Option String × Option Progress × List OrchCall
  | .noStub => (none, none, [])
  | .notInitialized => (none, none, [.isInitialized])
  | .stateError => (none, none, [.isInitialized, .getFullState])
  | .previewError _ =>
      (none, none, [.isInitialized, .getFullState, .getPreviewUrlCache])
  | .ok st preview =>
      (preview, some (progressOf st),
        [.isInitialized, .getFullState, .getPreviewUrlCache])

/-- Embeds `V1ProjectsController.getProject`. -/
def getProject (env : GetEnv) :
    ApiResponse GetProjectResponse × List OrchCall :=
  if env.projectId = "" then (.error "Project ID is required" 400, [])
  else
    match env.getAppDetails with
    | .err => (.error "Failed to get project" 500, [])
    | .ok none => (.error "Project not found" 404, [])
    | .ok (some app) =>
      if app.userId ≠ some env.apiKeyUser.id then
        (.error "Access denied" 403, [])
      else
        let lookup := agentProgressLookup env.agent
        let productionUrl := app.deploymentId.map fun d =>
          "https://" ++ d ++ "." ++ env.customDomain
        (.success
          { id := app.id
          , userId := app.userId.getD ""
          , title := app.title
          , description := app.description
          , status := app.status
          , previewUrl := lookup.1
          , productionUrl := productionUrl
          , progress := lookup.2.1
          , createdAt := app.createdAt
          , completedAt := if app.status = "completed" then app.updatedAt else none
          , visibility := app.visibility
          , framework := app.framework }
        , lookup.2.2)

/-! ## V1 users controller (`usersController.ts`) -/

/-- Body of POST /api/v1/users/find-or-create. -/
structure FindOrCreateUserRequestBody where
  email : String
  displayName : Option String
  deriving Repr, DecidableEq

/-- Oracle inputs for one `findOrCreateUser` execution. -/
structure FindOrCreateEnv where
  body : Option FindOrCreateUserRequestBody
  getUserByEmail : ServiceResult (Option DbUser)
  createUser : ServiceResult Unit
  newUserId : String

/-- The success body of `findOrCreateUser`. -/
structure FindOrCreateUserResponse where
  id : String
  email : String
  displayName : String
  isNew : Bool
  deriving Repr, DecidableEq

/-- Embeds `email.split('@')[0]` -/
def emailLocalPart (email : String) : String :=
  ((email.splitOn "@").headD "")

/-- Embeds `V1UsersController.findOrCreateUser`.  Issues no orchestrator calls. -/
def findOrCreateUser (env : FindOrCreateEnv) :
    ApiResponse FindOrCreateUserResponse × List OrchCall :=
  match env.body with
  | none => (.error "Invalid JSON body" 400, [])
  | some b =>
    if b.email = "" ∨ ¬ ('@' ∈ b.email.data) then
      (.error "Valid email is required" 400, [])
    else
      match env.getUserByEmail with
      | .err => (.error "Failed to find or create user" 500, [])
      | .ok (some user) =>
        (.success
          { id := user.id
          , email := user.email
          , displayName := user.displayName.getD user.email
          , isNew := false }
        , [])
      | .ok none =>
        match env.createUser with
        | .err => (.error "Failed to find or create user" 500, [])
        | .ok _ =>
          (.success
            { id := env.newUserId
            , email := b.email
            , displayName := (b.displayName.getD (emailLocalPart b.email))
            , isNew := true }
          , [])

/-- Oracle inputs for one `getUserById` execution; `userId` is
`context.pathParams.id` with `""` standing for a missing/empty parameter. -/
structure GetUserEnv where
  userId : String
  apiKeyUser : AuthUser
  getUserById : ServiceResult (Option DbUser)
  getAppsCount : ServiceResult Nat

/-- The success body of `getUserById`. -/
structure GetUserResponse where
  id : String
  email : String
  displayName : String
  avatarUrl : Option String
  appsCount : Nat
  deriving Repr, DecidableEq

/-- Embeds `V1UsersController.getUserById`.  The ownership check
`apiKeyUser.id !== userId` runs before any database lookup. -/
def getUserById (env : GetUserEnv) :
    ApiResponse GetUserResponse × List OrchCall :=
  if env.userId = "" then (.error "User ID is required" 400, [])
  else if env.apiKeyUser.id ≠ env.userId then
    (.error "API key can only access its own user" 403, [])
  else
    match env.getUserById with
    | .err => (.error "Failed to get user" 500, [])
    | .ok none => (.error "User not found" 404, [])
    | .ok (some user) =>
      match env.getAppsCount with
      | .err => (.error "Failed to get user" 500, [])
      | .ok n =>
        (.success
          { id := user.id
          , email := user.email
          , displayName := user.displayName.getD user.email
          , avatarUrl := user.avatarUrl
          , appsCount := n }
        , [])

/-! ## V1 API-keys controller (`usersController.ts`, `V1ApiKeysController`) -/

/-- The arguments of the `apiKeyService.createApiKey` insert: recording one
of these marks that a key row was actually created. -/
structure CreateKeyArgs where
  userId : String
  name : String
  keyHash : String
  keyPreview : String
  deriving Repr, DecidableEq

/-- Oracle inputs for one `createApiKey` execution: parsed body, the
(JWT-authenticated) context user, the uniqueness and count answers from the
key store, the generated random key, the hash function, and the insert
outcome. -/
structure CreateKeyEnv where
  body : Option String
  user : Option AuthUser
  isUnique : ServiceResult Bool
  keyCount : ServiceResult Nat
  randomKey : String
  hash : String → String
  insert : ServiceResult String

/-- The success body of `createApiKey`. -/
structure CreateApiKeyResponse where
  apiKey : String
  id : String
  name : String
  keyPreview : String
  message : String
  deriving Repr, DecidableEq

/-- Embeds `V1ApiKeysController.createApiKey`.  Returns the response, the insert
call issued (if any), and the (empty) orchestrator trace.  The key-count
ceiling check runs after the name-uniqueness check.  The source's emptiness
check `!name || name.trim().length === 0` holds exactly when every
character of `name` is whitespace, which is how it is embedded here. -/
def createApiKey (env : CreateKeyEnv) :
    ApiResponse CreateApiKeyResponse × Option CreateKeyArgs × List OrchCall :=
  match env.body with
  | none => (.error "Invalid JSON body" 400, none, [])
  | some name =>
    if name.data.all Char.isWhitespace then
      (.error "API key name is required" 400, none, [])
    else
      match env.user with
      | none => (.error "Authentication required" 401, none, [])
      | some user =>
        match env.isUnique with
        | .err => (.error "Failed to create API key" 500, none, [])
        | .ok false =>
          (.error "API key name already exists" 400, none, [])
        | .ok true =>
          match env.keyCount with
          | .err => (.error "Failed to create API key" 500, none, [])
          | .ok keyCount =>
            if keyCount ≥ 10 then
              (.error "Maximum API key limit (10) reached" 400, none, [])
            else
              let apiKey := env.randomKey
              let keyPreview := apiKey.take 12 ++ "..."
              let args : CreateKeyArgs :=
                { userId := user.id
                , name := name.trim
                , keyHash := env.hash apiKey
                , keyPreview := keyPreview }
              match env.insert with
              | .err => (.error "Failed to create API key" 500, some args, [])
              | .ok keyId =>
                (.success
                  { apiKey := apiKey
                  , id := keyId
                  , name := name.trim
                  , keyPreview := keyPreview
                  , message := "Store this API key securely - it will not be shown again" }
                , some args, [])

/-- Oracle inputs for one `listApiKeys` execution. -/
structure ListKeysEnv where
  user : Option AuthUser
  getUserApiKeys : ServiceResult (List ApiKeyRecord)

/-- Embeds `V1ApiKeysController.listApiKeys`. -/
def listApiKeys (env : ListKeysEnv) :
    ApiResponse (List ApiKeyRecord) × List OrchCall :=
  match env.user with
  | none => (.error "Authentication required" 401, [])
  | some _ =>
    match env.getUserApiKeys with
    | .err => (.error "Failed to list API keys" 500, [])
    | .ok keys => (.success keys, [])

/-- Oracle inputs for one `revokeApiKey` execution; `keyId` is
`context.pathParams.id` with `""` standing for a missing/empty parameter. -/
structure RevokeKeyEnv where
  keyId : String
  user : Option AuthUser
  revoke : ServiceResult Bool

/-- Embeds `V1ApiKeysController.revokeApiKey`. -/
def revokeApiKey (env : RevokeKeyEnv) :
    ApiResponse Bool × List OrchCall :=
  if env.keyId = "" then (.error "API key ID is required" 400, [])
  else
    match env.user with
    | none => (.error "Authentication required" 401, [])
    | some _ =>
      match env.revoke with
      | .err => (.error "Failed to revoke API key" 500, [])
      | .ok false => (.error "Failed to revoke API key" 500, [])
      | .ok true => (.success true, [])

/-! ## Orchestrator model

The orchestrator itself (the durable agent behind `getAgentStub`) is not part
of the excerpted source; only its callers are.  The definitions in this
section are therefore modelled from the spec (§3, §4.1, §4.2, §4.4, §6). -/

/-- Modelled from the spec: the orchestrator lifecycle states of §4.1
(the orchestrator's own state machine is not in the excerpted source). -/
inductive Lifecycle where
  | idle
  | blueprintGenerating
  | phaseGenerating
  | phaseImplementing
  | reviewing
  | fixing
  | completed
  | failed
  | stopped
  deriving Repr, DecidableEq

/-- Modelled from the spec: a `GenerationState` record as seen through the
orchestrator's query surface — whether it exists, its lifecycle phase, the
phase a stop suspended, and the monotonic state version (§3, §4.1). -/
structure OrchState where
  initialized : Bool
  lifecycle : Lifecycle
  resumeFrom : Option Lifecycle
  stateVersion : Nat
  deriving Repr, DecidableEq

/-- Whether a lifecycle phase is in progress (neither terminal nor idle nor
stopped), per §4.1. -/
def Lifecycle.inProgress : Lifecycle → Bool
  | .blueprintGenerating | .phaseGenerating | .phaseImplementing
  | .reviewing | .fixing => true
  | _ => false

/-- Modelled from the spec: the effect of each query-surface operation on
the orchestrator state (§4.1, §6).  `isInitialized`, `getFullState` and
`getPreviewUrlCache` are snapshot reads and leave the state unchanged;
`initialize` creates the state when absent; `requestStop` suspends an
in-progress phase; `requestResume` re-enters the suspended phase. -/
def applyOrchCall : OrchCall → OrchState → OrchState
  | .isInitialized, s => s
  | .getFullState, s => s
  | .getPreviewUrlCache, s => s
  | .initializeOp, s =>
      if s.initialized then s
      else
        { initialized := true
        , lifecycle := .blueprintGenerating
        , resumeFrom := none
        , stateVersion := s.stateVersion + 1 }
  | .requestStop, s =>
      if s.lifecycle.inProgress then
        { s with
          lifecycle := .stopped
        , resumeFrom := some s.lifecycle
        , stateVersion := s.stateVersion + 1 }
      else s
  | .requestResume, s =>
      if s.lifecycle = .stopped then
        { s with
          lifecycle := s.resumeFrom.getD .idle
        , resumeFrom := none
        , stateVersion := s.stateVersion + 1 }
      else s

/-- Run a trace of query-surface operations against the orchestrator. -/
def applyOrchCalls (calls : List OrchCall) (s : OrchState) : OrchState :=
  calls.foldl (fun s c => applyOrchCall c s) s

/-! ### File/version model (spec §3 FileState, §4.2 Phase Implementer) -/

/-- Modelled from the spec: the FileState status enum of §3. -/
inductive FileStatus where
  | generating
  | generated
  | regenerating
  | failed
  deriving Repr, DecidableEq

/-- Modelled from the spec: one FileState entry — path, current content, the
monotonically increasing version counter, and a status (§3). -/
structure FileState where
  path : String
  content : String
  version : Nat
  status : FileStatus
  deriving Repr, DecidableEq

/-- The mapping of file path → FileState inside GenerationState. -/
def FileMap : Type := String → Option FileState

/-- Modelled from the spec: the operations that mutate FileState — a Phase
Implementer apply ("marks the target FileState generating, applies the
operation, bumps version, marks generated", §4.2), a Review & Fix Engine
apply ("functionally identical to a single-file Phase Implementer run",
§4.4), and a decode rejection that only marks the file failed (§4.2/§4.3). -/
inductive FileOp where
  | write (path content : String)
  | fix (path content : String)
  | markFailed (path : String)
  deriving Repr, DecidableEq

/-- Whether an operation (re)generates the content of `p`. -/
def FileOp.writes : FileOp → String → Bool
  | .write p _, q => p = q
  | .fix p _, q => p = q
  | .markFailed _, _ => false

/-- The version currently recorded for a path (0 when the path has no entry
yet). -/
def versionOf (m : FileMap) (p : String) : Nat :=
  match m p with
  | some fs => fs.version
  | none => 0

/-- Modelled from the spec: applying one file operation to the map.  A
write or fix replaces the entry with the new content at version one above
the recorded version and status `generated`; a decode rejection sets status
`failed` without touching the version. -/
def applyFileOp : FileOp → FileMap → FileMap
  | .write p c, m => fun q =>
      if q = p then
        some { path := p, content := c, version := versionOf m p + 1
             , status := .generated }
      else m q
  | .fix p c, m => fun q =>
      if q = p then
        some { path := p, content := c, version := versionOf m p + 1
             , status := .generated }
      else m q
  | .markFailed p, m => fun q =>
      if q = p then
        match m p with
        | some fs => some { fs with status := .failed }
        | none => some { path := p, content := "", version := 0
                       , status := .failed }
      else m q

/-- Run a sequence of file operations. -/
def applyFileOps (ops : List FileOp) (m : FileMap) : FileMap :=
  ops.foldl (fun m op => applyFileOp op m) m

/-! ### Review & Fix loop (spec §4.4) -/

/-- Modelled from the spec: one review finding — file path, description,
severity, and its resolution status (§3 ReviewCycle, §4.4). -/
structure Finding where
  filePath : String
  description : String
  severity : String
  resolved : Bool
  deriving Repr, DecidableEq

/-- Modelled from the spec: the review-and-fix loop of §4.4, generic in the
generation state `σ`, the review capability (returns the findings of one
cycle) and the fix pass (drives targeted fixes for a cycle's findings).
The fuel argument is the number of fix rounds still allowed, i.e. the
configured cycle ceiling on the first call; each recursive step has spent
one fix round.  Returns the list of review cycles performed (each cycle is
its finding list) and the final state. -/
def reviewLoop {σ : Type} (review : σ → List Finding)
    (fix : σ → List Finding → σ) : Nat → σ → List (List Finding) × σ
  | 0, s => ([review s], s)
  | n + 1, s =>
    let fs := review s
    if fs.all (fun f => f.resolved) then ([fs], s)
    else
      let rest := reviewLoop review fix n (fix s fs)
      (fs :: rest.1, rest.2)

/-- Modelled from the spec: the Reviewing/Fixing stage of the orchestrator
(§4.1/§4.4): run the bounded review loop, then transition to `Completed`
whether or not findings remain — "reaching the ceiling is not an error" —
reporting the performed cycles (remaining findings included) in the final
state. -/
def reviewPhase {σ : Type} (ceiling : Nat) (review : σ → List Finding)
    (fix : σ → List Finding → σ) (s : σ) :
    Lifecycle × List (List Finding) :=
  let r := reviewLoop review fix ceiling s
  (.completed, r.1)

/-! ## Supporting lemmas -/

/-- The orchestrator trace of `createProject` is empty on every failure path
and exactly `[initialize]` on the success path. -/
theorem createProject_trace_cases (env : CreateEnv) (pid : String) :
    (createProject env pid).2 = [] ∨
      (createProject env pid).2 = [OrchCall.initializeOp] := by
  unfold createProject
  rcases env.body with _ | b
  · exact Or.inl rfl
  · simp only
    split
    · exact Or.inl rfl
    · rcases env.findUser b.userId with _ | u
      · exact Or.inl rfl
      · simp only
        split
        · exact Or.inl rfl
        · rcases env.rateLimit with v | _
          · rcases env.modelConfigs with v | _
            · rcases env.templateQuery with tmpl | _
              · rcases env.agentStub with v | _
                · exact Or.inr rfl
                · exact Or.inl rfl
              · exact Or.inl rfl
            · exact Or.inl rfl
          · exact Or.inl rfl

/-- The orchestrator trace of `getProject` is either empty or the trace of
the inner agent lookup. -/
theorem getProject_trace_cases (env : GetEnv) :
    (getProject env).2 = [] ∨
      (getProject env).2 = (agentProgressLookup env.agent).2.2 := by
  unfold getProject
  split
  · exact Or.inl rfl
  · rcases env.getAppDetails with (_ | app) | _
    · exact Or.inl rfl
    · simp only
      split
      · exact Or.inl rfl
      · exact Or.inr rfl
    · exact Or.inl rfl

/-- Every call in an agent-lookup trace is one of the three reads. -/
theorem agentProgressLookup_trace_reads (a : AgentLookup) (c : OrchCall)
    (hc : c ∈ (agentProgressLookup a).2.2) :
    c = OrchCall.isInitialized ∨ c = OrchCall.getFullState ∨
      c = OrchCall.getPreviewUrlCache := by
  cases a <;> simp [agentProgressLookup] at hc <;> tauto

/-- Handler `findOrCreateUser` issues no orchestrator calls. -/
theorem findOrCreateUser_trace (env : FindOrCreateEnv) :
    (findOrCreateUser env).2 = [] := by
  unfold findOrCreateUser
  repeat' split
  all_goals rfl

/-- Handler `getUserById` issues no orchestrator calls. -/
theorem getUserById_trace (env : GetUserEnv) : (getUserById env).2 = [] := by
  unfold getUserById
  repeat' split
  all_goals rfl

/-- Handler `createApiKey` issues no orchestrator calls. -/
theorem createApiKey_trace (env : CreateKeyEnv) :
    (createApiKey env).2.2 = [] := by
  unfold createApiKey
  repeat' split
  all_goals rfl

/-- Handler `listApiKeys` issues no orchestrator calls. -/
theorem listApiKeys_trace (env : ListKeysEnv) : (listApiKeys env).2 = [] := by
  unfold listApiKeys
  repeat' split
  all_goals rfl

/-- Handler `revokeApiKey` issues no orchestrator calls. -/
theorem revokeApiKey_trace (env : RevokeKeyEnv) : (revokeApiKey env).2 = [] := by
  unfold revokeApiKey
  repeat' split
  all_goals rfl

/-- Unfolding `apiKeyAuthMiddleware` on a present header. -/
theorem apiKeyAuthMiddleware_some (store : AuthStore) (h : String) :
    apiKeyAuthMiddleware store (some h) = keyOfBearer store (bearerToken h) :=
  rfl

/-! ## Concrete fixtures used by witnesses and counterexamples -/

def dbUser1 : DbUser := ⟨"u1", "u1@example.com", some "User One", none, true⟩

def authUser1 : AuthUser := ⟨"u1", "u1@example.com", "User One", true⟩

def url1 : RequestUrl := ⟨true, "api.example.com", "api.example.com", ""⟩

def tmpl1 : TemplateInfo := ⟨"react-starter", "matches the request", "sess-1"⟩

def body1 : CreateProjectRequestBody := ⟨"u1", "build a todo app", none, none⟩

/-- A `createProject` environment in which every gate passes. -/
def envCreateOk : CreateEnv :=
  ⟨some body1, fun _ => some dbUser1, authUser1, .ok (), .ok (), .ok tmpl1,
    .ok (), .completed, url1⟩

/-- Environment `envCreateOk` with the template-selection service throwing. -/
def envCreateTemplateFail : CreateEnv :=
  { envCreateOk with templateQuery := .err }

def app1 : AppRecord :=
  ⟨"p1", some "u1", "Todo", none, "generating", none, "private", some "react",
    none, none⟩

/-- Agent state of the two-phase/four-file scenario with all files
generated. -/
def st4 : CodeGenState :=
  ⟨some ⟨[⟨"scaffold", ["a", "b"]⟩, ⟨"feature", ["c", "d"]⟩]⟩,
    ["a", "b", "c", "d"], "COMPLETED"⟩

/-- A `getProject` environment whose agent lookup fails at the first step. -/
def envGetNoStub : GetEnv :=
  ⟨"p1", .ok (some app1), authUser1, .noStub, "apps.example.com"⟩

/-- A `getProject` environment with a live agent in the four-file state. -/
def envGetOk : GetEnv :=
  ⟨"p1", .ok (some app1), authUser1, .ok st4 (some "https://preview.example.com"),
    "apps.example.com"⟩

/-! ## Claims -/

/-- C2: for every request whose Authorization header is exactly
`Bearer vsk_test_hardcoded_key_12345678901234567890`, the middleware sets
the fixed test user (id `test-user-id`) and a mock API-key record and lets
the request proceed, regardless of the contents of the API-key store; every
other extracted key is validated by hashing and looking up the store. -/
theorem apiKeyAuth_hardcoded_bypass :
    (∀ store : AuthStore,
      apiKeyAuthMiddleware store (some ("Bearer " ++ HARDCODED_TEST_KEY)) =
        .proceed testAuthUser mockApiKeyRecord) ∧
    (∀ (store : AuthStore) (h k : String), bearerToken h = some k →
      k ≠ HARDCODED_TEST_KEY →
      apiKeyAuthMiddleware store (some h) = validateKeyViaStore store k) := by
  constructor
  · intro store
    have hb : bearerToken ("Bearer " ++ HARDCODED_TEST_KEY) =
        some HARDCODED_TEST_KEY := by decide
    rw [apiKeyAuthMiddleware_some, hb]
    simp [keyOfBearer]
  · intro store h k hbt hk
    rw [apiKeyAuthMiddleware_some, hbt]
    simp [keyOfBearer, hk]

/-- Witness for C2 at a concrete store and a concrete non-hardcoded key. -/
theorem apiKeyAuth_hardcoded_bypass_witness :
    bearerToken "Bearer abc" = some "abc" ∧
    "abc" ≠ HARDCODED_TEST_KEY ∧
    apiKeyAuthMiddleware ⟨fun s => s, fun _ => none, fun _ => none⟩
        (some "Bearer abc") =
      validateKeyViaStore ⟨fun s => s, fun _ => none, fun _ => none⟩ "abc" :=
  ⟨by decide, by decide,
    apiKeyAuth_hardcoded_bypass.2 _ "Bearer abc" "abc" (by decide) (by decide)⟩

/-- C3: every orchestrator-stub operation invoked by the V1 API layer is in
the allowed query surface: `createProject` issues only `initialize`,
`getProject` issues only `isInitialized`/`getFullState`/`getPreviewUrlCache`,
and no other V1 handler issues any orchestrator operation. -/
theorem v1_api_orchestrator_surface :
    (∀ (env : CreateEnv) (pid : String) (c : OrchCall),
      c ∈ (createProject env pid).2 → c = OrchCall.initializeOp) ∧
    (∀ (env : GetEnv) (c : OrchCall), c ∈ (getProject env).2 →
      c = OrchCall.isInitialized ∨ c = OrchCall.getFullState ∨
        c = OrchCall.getPreviewUrlCache) ∧
    (∀ env : FindOrCreateEnv, (findOrCreateUser env).2 = []) ∧
    (∀ env : GetUserEnv, (getUserById env).2 = []) ∧
    (∀ env : CreateKeyEnv, (createApiKey env).2.2 = []) ∧
    (∀ env : ListKeysEnv, (listApiKeys env).2 = []) ∧
    (∀ env : RevokeKeyEnv, (revokeApiKey env).2 = []) := by
  refine ⟨?_, ?_, findOrCreateUser_trace, getUserById_trace,
    createApiKey_trace, listApiKeys_trace, revokeApiKey_trace⟩
  · intro env pid c hc
    rcases createProject_trace_cases env pid with h | h
    · rw [h] at hc; simp at hc
    · rw [h] at hc; simpa using hc
  · intro env c hc
    rcases getProject_trace_cases env with h | h
    · rw [h] at hc; simp at hc
    · rw [h] at hc; exact agentProgressLookup_trace_reads env.agent c hc

/-- Witness for C3: on a concrete all-gates-pass environment `createProject`
issues `initialize`, and the theorem classifies it. -/
theorem v1_api_orchestrator_surface_witness :
    OrchCall.initializeOp ∈ (createProject envCreateOk "p1").2 ∧
    OrchCall.initializeOp = OrchCall.initializeOp :=
  ⟨by decide,
    v1_api_orchestrator_surface.1 envCreateOk "p1" OrchCall.initializeOp
      (by decide)⟩

/-- C1 (amended): for every createProject request that passes body parsing,
validation, authorization and rate limiting, and whose model-config lookup,
template selection and agent-stub retrieval succeed, the response is the
accepted/pending body — status `generating` with `websocketUrl` and
`statusUrl` — and the orchestrator's `initialize` is issued fire-and-forget;
moreover the handler's result never depends on the outcome of the background
generation, so no synchronous success or failure of the whole generation is
ever reported. -/
theorem createProject_accepted_fireAndForget :
    (∀ (env : CreateEnv) (pid : String) (b : CreateProjectRequestBody)
        (u : DbUser) (tmpl : TemplateInfo),
      env.body = some b → b.userId ≠ "" → b.instructions ≠ "" →
      env.findUser b.userId = some u → env.apiKeyUser.id = b.userId →
      env.rateLimit = .ok () → env.modelConfigs = .ok () →
      env.templateQuery = .ok tmpl → env.agentStub = .ok () →
      createProject env pid =
        (.success
          { projectId := pid
          , status := "generating"
          , websocketUrl := websocketUrlOf env.url pid
          , statusUrl := statusUrlOf env.url pid
          , templateName := tmpl.templateName
          , templateReasoning := tmpl.reasoning }
        , [OrchCall.initializeOp])) ∧
    (∀ (env : CreateEnv) (pid : String) (g : GenOutcome),
      createProject { env with genOutcome := g } pid =
        createProject env pid) := by
  constructor
  · intro env pid b u tmpl hb hu hi hf ha hr hm ht hs
    simp only [createProject, hb]
    rw [if_neg (not_or.mpr ⟨hu, hi⟩)]
    simp only [hf]
    rw [if_neg (not_not_intro ha)]
    simp only [hr, hm, ht, hs]
  · intro env pid g
    rfl

/-- Witness for C1 on the concrete all-gates-pass environment. -/
theorem createProject_accepted_fireAndForget_witness :
    envCreateOk.body = some body1 ∧
    body1.userId ≠ "" ∧
    envCreateOk.findUser body1.userId = some dbUser1 ∧
    envCreateOk.apiKeyUser.id = body1.userId ∧
    createProject envCreateOk "p1" =
      (.success
        { projectId := "p1"
        , status := "generating"
        , websocketUrl := websocketUrlOf url1 "p1"
        , statusUrl := statusUrlOf url1 "p1"
        , templateName := "react-starter"
        , templateReasoning := "matches the request" }
      , [OrchCall.initializeOp]) :=
  ⟨rfl, by decide, rfl, rfl,
    createProject_accepted_fireAndForget.1 envCreateOk "p1" body1 dbUser1 tmpl1
      rfl (by decide) (by decide) rfl rfl rfl rfl rfl rfl⟩

/-- Counterexample to C1 as stated: this request passes body parsing,
validation, authorization and rate limiting, yet the response is a
synchronous 500 error, not the `generating` acceptance, because template
selection fails. -/
theorem createProject_c1_counterexample :
    envCreateTemplateFail.body = some body1 ∧
    body1.userId ≠ "" ∧ body1.instructions ≠ "" ∧
    envCreateTemplateFail.findUser body1.userId = some dbUser1 ∧
    envCreateTemplateFail.apiKeyUser.id = body1.userId ∧
    envCreateTemplateFail.rateLimit = .ok () ∧
    (createProject envCreateTemplateFail "p1").1 =
      .error "Failed to create project" 500 :=
  ⟨rfl, by decide, by decide, rfl, rfl, rfl, rfl⟩

/-- C4: for every `getProject` call on an existing project owned by the
caller, failure of the orchestrator/preview lookup (no stub, not
initialized, or a throw while reading state or the preview cache) is never
fatal: the call still returns a success response with `previewUrl` null and
no `progress` field. -/
theorem getProject_agent_failure_nonfatal :
    ∀ (env : GetEnv) (app : AppRecord),
      env.projectId ≠ "" →
      env.getAppDetails = .ok (some app) →
      app.userId = some env.apiKeyUser.id →
      (env.agent = .noStub ∨ env.agent = .notInitialized ∨
        env.agent = .stateError ∨ ∃ st, env.agent = .previewError st) →
      ∃ r : GetProjectResponse,
        (getProject env).1 = .success r ∧ r.previewUrl = none ∧
          r.progress = none := by
  intro env app hpid happ hown hfail
  unfold getProject
  rw [if_neg hpid]
  simp only [happ]
  rw [if_neg (not_not_intro hown)]
  rcases hfail with h | h | h | ⟨st, h⟩ <;> rw [h] <;> exact ⟨_, rfl, rfl, rfl⟩

/-- Witness for C4 on a concrete owned project whose agent stub is
unavailable. -/
theorem getProject_agent_failure_nonfatal_witness :
    envGetNoStub.projectId ≠ "" ∧
    envGetNoStub.getAppDetails = .ok (some app1) ∧
    app1.userId = some envGetNoStub.apiKeyUser.id ∧
    ∃ r : GetProjectResponse,
      (getProject envGetNoStub).1 = .success r ∧ r.previewUrl = none ∧
        r.progress = none :=
  ⟨by decide, rfl, rfl,
    getProject_agent_failure_nonfatal envGetNoStub app1 (by decide) rfl rfl
      (Or.inl rfl)⟩

/-- C5: `getProject` is a pure status query: it only ever issues the read
operations `isInitialized`, `getFullState`, `getPreviewUrlCache`, and
running its trace against the modelled orchestrator leaves every
orchestrator state unchanged. -/
theorem getProject_readonly_frame :
    ∀ env : GetEnv,
      (∀ c ∈ (getProject env).2, c = OrchCall.isInitialized ∨
        c = OrchCall.getFullState ∨ c = OrchCall.getPreviewUrlCache) ∧
      ∀ s : OrchState, applyOrchCalls (getProject env).2 s = s := by
  intro env
  constructor
  · intro c hc
    rcases getProject_trace_cases env with h | h
    · rw [h] at hc; simp at hc
    · rw [h] at hc; exact agentProgressLookup_trace_reads env.agent c hc
  · intro s
    rcases getProject_trace_cases env with h | h <;> rw [h]
    · rfl
    · rcases env.agent with _ | _ | _ | st | ⟨st, p⟩ <;> rfl

/-- Witness for C5 on the concrete live-agent environment. -/
theorem getProject_readonly_frame_witness :
    OrchCall.isInitialized ∈ (getProject envGetOk).2 ∧
    (OrchCall.isInitialized = OrchCall.isInitialized ∨
      OrchCall.isInitialized = OrchCall.getFullState ∨
      OrchCall.isInitialized = OrchCall.getPreviewUrlCache) ∧
    applyOrchCalls (getProject envGetOk).2 ⟨true, .completed, none, 7⟩ =
      ⟨true, .completed, none, 7⟩ :=
  ⟨by decide,
    (getProject_readonly_frame envGetOk).1 OrchCall.isInitialized (by decide),
    (getProject_readonly_frame envGetOk).2 ⟨true, .completed, none, 7⟩⟩

/-- Rounding half-up of `100*fg/tf` agrees with the natural-division closed
form `(200*fg + tf) / (2*tf)`. -/
theorem round_percent_char (fg tf : ℕ) (h : 0 < tf) :
    round ((100 * (fg : ℚ)) / (tf : ℚ)) =
      (Nat.cast ((200 * fg + tf) / (2 * tf)) : ℤ) := by
  have htf : (tf : ℚ) ≠ 0 := Nat.cast_ne_zero.mpr h.ne'
  have h2 : (100 * (fg : ℚ)) / (tf : ℚ) + 1 / 2 =
      ((200 * fg + tf : ℕ) : ℚ) / ((2 * tf : ℕ) : ℚ) := by
    push_cast
    field_simp
    ring
  have h4 : (0 : ℚ) ≤ ((200 * fg + tf : ℕ) : ℚ) / ((2 * tf : ℕ) : ℚ) := by
    positivity
  have h5 : (0 : ℤ) ≤ ⌊((200 * fg + tf : ℕ) : ℚ) / ((2 * tf : ℕ) : ℚ)⌋ :=
    Int.floor_nonneg.2 h4
  rw [round_eq, h2]
  calc ⌊((200 * fg + tf : ℕ) : ℚ) / ((2 * tf : ℕ) : ℚ)⌋
      = ((⌊((200 * fg + tf : ℕ) : ℚ) / ((2 * tf : ℕ) : ℚ)⌋.toNat : ℕ) : ℤ) :=
        (Int.toNat_of_nonneg h5).symm
    _ = ((⌊((200 * fg + tf : ℕ) : ℚ) / ((2 * tf : ℕ) : ℚ)⌋₊ : ℕ) : ℤ) := by
        rw [Int.floor_toNat]
    _ = (Nat.cast ((200 * fg + tf) / (2 * tf)) : ℤ) := by
        rw [Nat.floor_div_eq_div]

/-- Generic form of the half-up rounding bridge: rounding `a / b` half-up
equals the natural division `(2a + b) / (2b)`. -/
theorem round_nat_div (a b : ℕ) (hb : 0 < b) :
    round ((a : ℚ) / (b : ℚ)) = (Nat.cast ((2 * a + b) / (2 * b)) : ℤ) := by
  have hbq : (b : ℚ) ≠ 0 := Nat.cast_ne_zero.mpr hb.ne'
  have h2 : (a : ℚ) / (b : ℚ) + 1 / 2 =
      ((2 * a + b : ℕ) : ℚ) / ((2 * b : ℕ) : ℚ) := by
    push_cast
    field_simp
    ring
  have h4 : (0 : ℚ) ≤ ((2 * a + b : ℕ) : ℚ) / ((2 * b : ℕ) : ℚ) := by
    positivity
  have h5 : (0 : ℤ) ≤ ⌊((2 * a + b : ℕ) : ℚ) / ((2 * b : ℕ) : ℚ)⌋ :=
    Int.floor_nonneg.2 h4
  rw [round_eq, h2]
  calc ⌊((2 * a + b : ℕ) : ℚ) / ((2 * b : ℕ) : ℚ)⌋
      = ((⌊((2 * a + b : ℕ) : ℚ) / ((2 * b : ℕ) : ℚ)⌋.toNat : ℕ) : ℤ) :=
        (Int.toNat_of_nonneg h5).symm
    _ = ((⌊((2 * a + b : ℕ) : ℚ) / ((2 * b : ℕ) : ℚ)⌋₊ : ℕ) : ℤ) := by
        rw [Int.floor_toNat]
    _ = (Nat.cast ((2 * a + b) / (2 * b)) : ℤ) := by
        rw [Nat.floor_div_eq_div]

/-- The fuel-bounded logarithm never overshoots: `log2f fuel n ≤ k` whenever
`n < 2^(k+1)`. -/
theorem log2f_le (fuel : ℕ) : ∀ (k n : ℕ), n < 2 ^ (k + 1) → log2f fuel n ≤ k := by
  induction fuel with
  | zero => intro k n _; exact Nat.zero_le _
  | succ f ih =>
    intro k n h
    unfold log2f
    split
    · next h2 =>
      rcases k with _ | k2
      · norm_num at h
        omega
      · have hdiv : n / 2 < 2 ^ (k2 + 1) := by
          have hpow : (2 : ℕ) ^ (k2 + 1 + 1) = 2 ^ (k2 + 1) * 2 := by ring
          exact (Nat.div_lt_iff_lt_mul (by norm_num)).mpr (hpow ▸ h)
        have := ih k2 (n / 2) hdiv
        omega
    · exact Nat.zero_le _

/-- Rounding an integer divided by one is the integer. -/
theorem rne_one (a : ℕ) : rne a 1 = a := by
  simp only [rne, Nat.mod_one, Nat.div_one]
  norm_num

/-- The scaled self-quotient rounds exactly to `2^52`. -/
theorem rne_mul_pow (m : ℕ) (h : 0 < m) : rne (m * 2 ^ 52) m = 2 ^ 52 := by
  simp only [rne]
  have hq : m * 2 ^ 52 / m = 2 ^ 52 := Nat.mul_div_cancel_left _ h
  have hr : m * 2 ^ 52 % m = 0 := Nat.mul_mod_right m _
  rw [hq, hr]
  simp [h]

/-- The binary exponent of `m / m` is zero. -/
theorem ratLog2_self (m : ℕ) (h : 0 < m) : ratLog2 m m = 0 := by
  simp [ratLog2, pow2le]

/-- Binary64 rounding of `m / m` is exactly one (`2^52 · 2^-52`). -/
theorem floatDivPos_self (m : ℕ) (h : 0 < m) :
    floatDivPos m m = ⟨2 ^ 52, -52⟩ := by
  simp only [floatDivPos, ratLog2_self m h]
  rw [if_pos (by norm_num : (0 : ℤ) ≤ 52)]
  rw [show ((52 : ℤ) - 0).toNat = 52 from rfl]
  rw [rne_mul_pow m h]
  norm_num

/-- Binary64 division of a nonzero value by itself gives exactly one. -/
theorem floatDiv_self (x : F64) (h : x.m ≠ 0) :
    floatDiv x x = ⟨2 ^ 52, -52⟩ := by
  simp only [floatDiv, if_neg h, floatDivPos_self x.m (Nat.pos_of_ne_zero h)]
  congr 1
  ring

/-- For a positive count below `2^53`, the binary64 datum has a nonzero
mantissa. -/
theorem floatOfNat_m_ne_zero (n : ℕ) (h1 : 0 < n) (h2 : n < 2 ^ 53) :
    (floatOfNat n).m ≠ 0 := by
  unfold floatOfNat
  rw [if_neg (Nat.pos_iff_ne_zero.mp h1)]
  have hE : ratLog2 n 1 ≤ 52 := by
    have hl : log2f 128 n ≤ 52 := log2f_le 128 52 n (by norm_num; exact h2)
    have hl1 : log2f 128 1 = 0 := rfl
    simp only [ratLog2, hl1]
    split
    · omega
    · omega
  simp only [floatDivPos]
  rw [if_pos hE, rne_one]
  split
  · norm_num
  · simp only []
    exact Nat.mul_ne_zero (by omega) (by positivity)

/-- Binary64 division of the double of a count below `2^53` by itself gives
exactly one. -/
theorem floatDiv_floatOfNat_self (n : ℕ) (h1 : 0 < n) (h2 : n < 2 ^ 53) :
    floatDiv (floatOfNat n) (floatOfNat n) = ⟨2 ^ 52, -52⟩ :=
  floatDiv_self _ (floatOfNat_m_ne_zero n h1 h2)

/-- `f64RoundHalfUp` computes exactly the round-half-up of the represented
rational value. -/
theorem f64RoundHalfUp_eq_round (x : F64) :
    (f64RoundHalfUp x : ℤ) = round (F64.val x) := by
  unfold f64RoundHalfUp F64.val
  split
  · next he =>
    have h2 : (2 : ℚ) ^ x.e = (2 : ℚ) ^ x.e.toNat := by
      rw [← zpow_natCast, Int.toNat_of_nonneg he]
    have hx : (x.m : ℚ) * (2 : ℚ) ^ x.e = ((x.m * 2 ^ x.e.toNat : ℕ) : ℚ) := by
      rw [h2]
      push_cast
      ring
    rw [hx, round_natCast]
  · next he =>
    have hneg : (0 : ℤ) ≤ -x.e := by omega
    have h2 : (2 : ℚ) ^ x.e = ((2 : ℚ) ^ (-x.e).toNat)⁻¹ := by
      rw [← zpow_natCast, Int.toNat_of_nonneg hneg, ← zpow_neg, neg_neg]
    have hval : (x.m : ℚ) * (2 : ℚ) ^ x.e =
        (x.m : ℚ) / (((2 ^ (-x.e).toNat : ℕ)) : ℚ) := by
      rw [h2]
      push_cast
      ring
    rw [hval, round_nat_div x.m (2 ^ (-x.e).toNat) (by positivity)]

set_option maxRecDepth 8000 in
/-- C6 (amended): the progress `getProject` reports from a live agent state
carries `percentComplete` equal to the integer nearest — ties toward `+∞` —
the binary64 evaluation of `(filesGenerated / totalFiles) * 100` when
`totalFiles > 0` (the source computes in IEEE doubles, so this can differ
from the exact rational rounding), `0` when `totalFiles = 0`, and exactly
`100` whenever every declared file is generated (`filesGenerated =
totalFiles > 0`, counts below `2^53`), where `totalFiles` sums the blueprint
phases' file counts and `filesGenerated` counts the generated-files map
entries. -/
theorem getProject_percent_formula :
    (∀ st : CodeGenState, 0 < totalFilesOf st →
      (percentCompleteOf st : ℤ) =
        round (F64.val
          (jsPercentF64 (filesGeneratedOf st) (totalFilesOf st)))) ∧
    (∀ st : CodeGenState, totalFilesOf st = 0 → percentCompleteOf st = 0) ∧
    (∀ st : CodeGenState, 0 < totalFilesOf st → totalFilesOf st < 2 ^ 53 →
      filesGeneratedOf st = totalFilesOf st → percentCompleteOf st = 100) ∧
    (∀ (env : GetEnv) (app : AppRecord) (st : CodeGenState)
        (preview : Option String),
      env.projectId ≠ "" → env.getAppDetails = .ok (some app) →
      app.userId = some env.apiKeyUser.id → env.agent = .ok st preview →
      ∃ r : GetProjectResponse, (getProject env).1 = .success r ∧
        r.progress = some (progressOf st)) := by
  refine ⟨?_, ?_, ?_, ?_⟩
  · intro st h
    unfold percentCompleteOf
    rw [if_pos h]
    exact f64RoundHalfUp_eq_round _
  · intro st h
    unfold percentCompleteOf
    rw [if_neg (by omega)]
  · intro st h1 h2 h3
    unfold percentCompleteOf
    rw [if_pos h1]
    unfold jsPercentF64
    rw [h3, floatDiv_floatOfNat_self (totalFilesOf st) h1 h2]
    decide
  · intro env app st preview hpid happ hown hag
    unfold getProject
    rw [if_neg hpid]
    simp only [happ]
    rw [if_neg (not_not_intro hown)]
    rw [hag]
    exact ⟨_, rfl, rfl⟩

set_option maxRecDepth 8000 in
/-- Witness for C6: on the two-phase four-file state with all four files
generated, `percentComplete` is 100, and `getProject` reports exactly that
progress. -/
theorem getProject_percent_formula_witness :
    0 < totalFilesOf st4 ∧
    totalFilesOf st4 < 2 ^ 53 ∧
    filesGeneratedOf st4 = totalFilesOf st4 ∧
    percentCompleteOf st4 = 100 ∧
    envGetOk.agent = .ok st4 (some "https://preview.example.com") ∧
    ∃ r : GetProjectResponse, (getProject envGetOk).1 = .success r ∧
      r.progress = some (progressOf st4) :=
  ⟨by decide, by decide, by decide,
    getProject_percent_formula.2.2.1 st4 (by decide) (by decide) (by decide),
    rfl,
    getProject_percent_formula.2.2.2 envGetOk app1 st4
      (some "https://preview.example.com") (by decide) rfl rfl rfl⟩

/-- Agent state with one 40-file phase and 23 generated entries: the
program's binary64 arithmetic reports 57 percent here. -/
def st2340 : CodeGenState :=
  ⟨some ⟨[⟨"phase1", List.replicate 40 "f"⟩]⟩, List.replicate 23 "k",
    "REVIEWING"⟩

set_option maxRecDepth 8000 in
/-- Counterexample to C6 as stated: at 23 generated files of 40 declared,
the program computes `Math.round((23/40)*100)` in binary64 as 57 — the
double nearest `0.575` lies below it, so the product is just under `57.5` —
while the exact rational rounding the claim asserts gives 58. -/
theorem getProject_percent_counterexample :
    totalFilesOf st2340 = 40 ∧
    filesGeneratedOf st2340 = 23 ∧
    percentCompleteOf st2340 = 57 ∧
    (progressOf st2340).percentComplete = 57 ∧
    round ((100 * ((filesGeneratedOf st2340 : ℕ) : ℚ)) /
      ((totalFilesOf st2340 : ℕ) : ℚ)) = 58 := by
  refine ⟨by decide, by decide, by decide, by decide, ?_⟩
  rw [show filesGeneratedOf st2340 = 23 from by decide,
    show totalFilesOf st2340 = 40 from by decide,
    round_percent_char 23 40 (by norm_num)]
  norm_num

/-- Reading the version through a known map entry. -/
theorem versionOf_map (f : FileMap) (p : String) (fs : FileState)
    (h : f p = some fs) : versionOf f p = fs.version := by
  unfold versionOf
  rw [h]

/-- Reading the version of an absent entry. -/
theorem versionOf_none (f : FileMap) (p : String) (h : f p = none) :
    versionOf f p = 0 := by
  unfold versionOf
  rw [h]

/-- One file operation never lowers a path's version. -/
theorem versionOf_applyFileOp_le (op : FileOp) (m : FileMap) (p : String) :
    versionOf m p ≤ versionOf (applyFileOp op m) p := by
  cases op with
  | write q c =>
    by_cases h : p = q
    · subst h
      have h1 : applyFileOp (.write p c) m p =
          some ⟨p, c, versionOf m p + 1, .generated⟩ := by
        simp [applyFileOp]
      rw [versionOf_map _ _ _ h1]
      exact Nat.le_succ _
    · have h1 : applyFileOp (.write q c) m p = m p := by
        simp [applyFileOp, h]
      have h2 : versionOf (applyFileOp (.write q c) m) p = versionOf m p := by
        unfold versionOf
        rw [h1]
      rw [h2]
  | fix q c =>
    by_cases h : p = q
    · subst h
      have h1 : applyFileOp (.fix p c) m p =
          some ⟨p, c, versionOf m p + 1, .generated⟩ := by
        simp [applyFileOp]
      rw [versionOf_map _ _ _ h1]
      exact Nat.le_succ _
    · have h1 : applyFileOp (.fix q c) m p = m p := by
        simp [applyFileOp, h]
      have h2 : versionOf (applyFileOp (.fix q c) m) p = versionOf m p := by
        unfold versionOf
        rw [h1]
      rw [h2]
  | markFailed q =>
    by_cases h : p = q
    · subst h
      rcases hm : m p with _ | fs
      · have h1 : applyFileOp (.markFailed p) m p =
            some ⟨p, "", 0, .failed⟩ := by
          simp [applyFileOp, hm]
        rw [versionOf_map _ _ _ h1, versionOf_none _ _ hm]
      · have h1 : applyFileOp (.markFailed p) m p =
            some { fs with status := .failed } := by
          simp [applyFileOp, hm]
        rw [versionOf_map _ _ _ h1, versionOf_map _ _ _ hm]
    · have h1 : applyFileOp (.markFailed q) m p = m p := by
        simp [applyFileOp, h]
      have h2 : versionOf (applyFileOp (.markFailed q) m) p = versionOf m p := by
        unfold versionOf
        rw [h1]
      rw [h2]

/-- An operation that (re)generates `p` strictly raises its version. -/
theorem versionOf_applyFileOp_lt (op : FileOp) (m : FileMap) (p : String)
    (h : op.writes p = true) :
    versionOf m p < versionOf (applyFileOp op m) p := by
  cases op with
  | write q c =>
    have hq : q = p := by
      simpa [FileOp.writes] using h
    subst hq
    have h1 : applyFileOp (.write q c) m q =
        some ⟨q, c, versionOf m q + 1, .generated⟩ := by
      simp [applyFileOp]
    rw [versionOf_map _ _ _ h1]
    exact Nat.lt_succ_self _
  | fix q c =>
    have hq : q = p := by
      simpa [FileOp.writes] using h
    subst hq
    have h1 : applyFileOp (.fix q c) m q =
        some ⟨q, c, versionOf m q + 1, .generated⟩ := by
      simp [applyFileOp]
    rw [versionOf_map _ _ _ h1]
    exact Nat.lt_succ_self _
  | markFailed q =>
    simp [FileOp.writes] at h

/-- Folding over a suffix, expressed through `foldl`. -/
theorem applyFileOps_append (l1 l2 : List FileOp) (m : FileMap) :
    applyFileOps (l1 ++ l2) m = applyFileOps l2 (applyFileOps l1 m) :=
  List.foldl_append _ _ _ _

/-- A whole sequence of operations never lowers a path's version. -/
theorem versionOf_applyFileOps_le (ops : List FileOp) (m : FileMap)
    (p : String) : versionOf m p ≤ versionOf (applyFileOps ops m) p := by
  induction ops generalizing m with
  | nil => exact Nat.le_refl _
  | cons op rest ih =>
    exact Nat.le_trans (versionOf_applyFileOp_le op m p)
      (ih (applyFileOp op m))

/-- C7 (spec-modelled): for every path, under any sequence of orchestrator
file operations the version counter never decreases, and each operation
that (re)generates the path yields a version strictly above the version at
every earlier point — so versions are never reused and regeneration never
silently overwrites in place. -/
theorem fileState_version_strict_mono :
    ∀ (ops : List FileOp) (m : FileMap) (p : String),
      versionOf m p ≤ versionOf (applyFileOps ops m) p ∧
      (∀ (pre : List FileOp) (op : FileOp) (post : List FileOp),
        ops = pre ++ op :: post → op.writes p = true →
        versionOf (applyFileOps pre m) p <
          versionOf (applyFileOps ops m) p) := by
  intro ops m p
  refine ⟨versionOf_applyFileOps_le ops m p, ?_⟩
  intro pre op post hops hw
  subst hops
  rw [applyFileOps_append]
  have hstep : applyFileOps (op :: post) (applyFileOps pre m) =
      applyFileOps post (applyFileOp op (applyFileOps pre m)) := rfl
  rw [hstep]
  exact Nat.lt_of_lt_of_le
    (versionOf_applyFileOp_lt op (applyFileOps pre m) p hw)
    (versionOf_applyFileOps_le post (applyFileOp op (applyFileOps pre m)) p)

/-- Witness for C7: a concrete regeneration of `"a"` strictly raises its
version from the empty map. -/
theorem fileState_version_strict_mono_witness :
    ([FileOp.write "a" "x", FileOp.fix "a" "y"] =
      [FileOp.write "a" "x"] ++ FileOp.fix "a" "y" :: []) ∧
    (FileOp.fix "a" "y").writes "a" = true ∧
    versionOf (applyFileOps [FileOp.write "a" "x"] (fun _ => none)) "a" <
      versionOf
        (applyFileOps [FileOp.write "a" "x", FileOp.fix "a" "y"]
          (fun _ => none)) "a" :=
  ⟨rfl, by decide,
    (fileState_version_strict_mono
        [FileOp.write "a" "x", FileOp.fix "a" "y"] (fun _ => none) "a").2
      [FileOp.write "a" "x"] (FileOp.fix "a" "y") [] rfl (by decide)⟩

/-- C8 (spec-modelled): for every review capability, fix pass, ceiling and
starting state, the review-and-fix loop performs at most `ceiling + 1`
review cycles, and the orchestrator then proceeds to `Completed` — never to
`Failed` — with the performed cycles (remaining findings included) reported
in the final state. -/
theorem review_loop_bounded :
    ∀ (σ : Type) (review : σ → List Finding) (fix : σ → List Finding → σ)
      (ceiling : Nat) (s : σ),
      (reviewLoop review fix ceiling s).1.length ≤ ceiling + 1 ∧
      (reviewPhase ceiling review fix s).1 = Lifecycle.completed ∧
      (reviewPhase ceiling review fix s).2 =
        (reviewLoop review fix ceiling s).1 := by
  intro σ review fix ceiling s
  refine ⟨?_, rfl, rfl⟩
  induction ceiling generalizing s with
  | zero => simp [reviewLoop]
  | succ n ih =>
    simp only [reviewLoop]
    split
    · simp
    · simpa using Nat.succ_le_succ (ih (fix s (review s)))

/-- Inversion for `createProject`: either the parsed body's `userId` is the
authenticated user's id, or the call failed — empty orchestrator trace and
an error response. -/
theorem createProject_cases (env : CreateEnv) (pid : String) :
    (∃ b, env.body = some b ∧ env.apiKeyUser.id = b.userId) ∨
    ((createProject env pid).2 = [] ∧
      ∀ r : CreateProjectResponse,
        (createProject env pid).1 ≠ .success r) := by
  rcases hb : env.body with _ | b
  · right
    have h1 : createProject env pid = (.error "Invalid JSON body" 400, []) := by
      simp only [createProject, hb]
    rw [h1]
    exact ⟨rfl, fun r h => ApiResponse.noConfusion h⟩
  · by_cases hid : env.apiKeyUser.id = b.userId
    · exact Or.inl ⟨b, hb ▸ rfl, hid⟩
    · right
      by_cases hval : b.userId = "" ∨ b.instructions = ""
      · have h1 : createProject env pid =
            (.error "userId and instructions are required" 400, []) := by
          simp only [createProject, hb]
          rw [if_pos hval]
        rw [h1]
        exact ⟨rfl, fun r h => ApiResponse.noConfusion h⟩
      · rcases hf : env.findUser b.userId with _ | u
        · have h1 : createProject env pid = (.error "User not found" 404, []) := by
            simp only [createProject, hb]
            rw [if_neg hval]
            simp only [hf]
          rw [h1]
          exact ⟨rfl, fun r h => ApiResponse.noConfusion h⟩
        · have h1 : createProject env pid =
              (.error "API key can only create projects for its own user" 403,
                []) := by
            simp only [createProject, hb]
            rw [if_neg hval]
            simp only [hf]
            rw [if_pos hid]
          rw [h1]
          exact ⟨rfl, fun r h => ApiResponse.noConfusion h⟩

/-- C9 (amended): the V1 API acts only on the authenticated user.  A
createProject body naming an existing user other than the key's user gets a
403; whenever the body's `userId` differs from the key's user, `initialize`
is never issued, whatever else happens; a getUserById for a nonempty id
other than the key's user gets a 403 with no lookup; and any success from
either handler implies the acting user equals the target user. -/
theorem v1_own_user_only :
    (∀ (env : CreateEnv) (pid : String) (b : CreateProjectRequestBody)
        (u : DbUser),
      env.body = some b → b.userId ≠ "" → b.instructions ≠ "" →
      env.findUser b.userId = some u → env.apiKeyUser.id ≠ b.userId →
      createProject env pid =
        (.error "API key can only create projects for its own user" 403,
          [])) ∧
    (∀ (env : CreateEnv) (pid : String) (b : CreateProjectRequestBody),
      env.body = some b → env.apiKeyUser.id ≠ b.userId →
      OrchCall.initializeOp ∉ (createProject env pid).2) ∧
    (∀ env : GetUserEnv, env.userId ≠ "" → env.apiKeyUser.id ≠ env.userId →
      getUserById env =
        (.error "API key can only access its own user" 403, [])) ∧
    (∀ (env : CreateEnv) (pid : String) (r : CreateProjectResponse)
        (tr : List OrchCall),
      createProject env pid = (.success r, tr) →
      ∃ b, env.body = some b ∧ env.apiKeyUser.id = b.userId) ∧
    (∀ (env : GetUserEnv) (r : GetUserResponse) (tr : List OrchCall),
      getUserById env = (.success r, tr) →
      env.apiKeyUser.id = env.userId) := by
  refine ⟨?_, ?_, ?_, ?_, ?_⟩
  · intro env pid b u hb hu hi hf hne
    simp only [createProject, hb]
    rw [if_neg (not_or.mpr ⟨hu, hi⟩)]
    simp only [hf]
    rw [if_pos hne]
  · intro env pid b hb hne hmem
    rcases createProject_cases env pid with ⟨b2, hb2, hid⟩ | ⟨htr, _⟩
    · rw [hb] at hb2
      cases hb2
      exact hne hid
    · rw [htr] at hmem
      simp at hmem
  · intro env h1 h2
    simp only [getUserById]
    rw [if_neg h1, if_pos h2]
  · intro env pid r tr h
    rcases createProject_cases env pid with hok | ⟨_, hfail⟩
    · exact hok
    · exact absurd (congrArg Prod.fst h) (hfail r)
  · intro env r tr h
    by_cases h1 : env.userId = ""
    · have h2 : getUserById env = (.error "User ID is required" 400, []) := by
        simp only [getUserById]
        rw [if_pos h1]
      rw [h2] at h
      exact ApiResponse.noConfusion (congrArg Prod.fst h)
    · by_cases h2 : env.apiKeyUser.id = env.userId
      · exact h2
      · have h3 : getUserById env =
            (.error "API key can only access its own user" 403, []) := by
          simp only [getUserById]
          rw [if_neg h1, if_pos h2]
        rw [h3] at h
        exact ApiResponse.noConfusion (congrArg Prod.fst h)

/-- Witness for C9: concrete mismatched getUserById request is rejected
with 403. -/
theorem v1_own_user_only_witness :
    ("alice" : String) ≠ "" ∧
    authUser1.id ≠ "alice" ∧
    getUserById ⟨"alice", authUser1, .ok none, .ok 0⟩ =
      (.error "API key can only access its own user" 403, []) :=
  ⟨by decide, by decide,
    v1_own_user_only.2.2.1 ⟨"alice", authUser1, .ok none, .ok 0⟩ (by decide)
      (by decide)⟩

def bodyAlice : CreateProjectRequestBody := ⟨"alice", "build it", none, none⟩

def authUserBob : AuthUser := ⟨"bob", "bob@example.com", "Bob", true⟩

/-- A createProject request whose body `userId` differs from the key's user
while that target user does not exist. -/
def envMismatchNoUser : CreateEnv :=
  ⟨some bodyAlice, fun _ => none, authUserBob, .ok (), .ok (), .ok tmpl1,
    .ok (), .completed, url1⟩

/-- Counterexample to C9 as stated: the body's `userId` differs from the
authenticated user's id, yet the result is a 404 ("User not found"), not a
403 — the user-existence check runs before the ownership check. -/
theorem v1_own_user_only_counterexample :
    envMismatchNoUser.body = some bodyAlice ∧
    envMismatchNoUser.apiKeyUser.id ≠ bodyAlice.userId ∧
    (createProject envMismatchNoUser "p1").1 = .error "User not found" 404 ∧
    ∀ msg : String,
      (createProject envMismatchNoUser "p1").1 ≠ .error msg 403 := by
  have hcomp : (createProject envMismatchNoUser "p1").1 =
      .error "User not found" 404 := rfl
  refine ⟨rfl, by decide, hcomp, ?_⟩
  intro msg h
  rw [hcomp] at h
  injection h with h1 h2
  exact absurd h2 (by decide)

/-- C10 (amended): when the body parses with a nonempty name, the caller is
authenticated and the name is unique for the user, a user with 10 or more
active API keys gets a 400 error with message
`Maximum API key limit (10) reached` and no key row is inserted; moreover a
key row is only ever inserted when the active count is strictly below 10,
so this operation can never drive a user's active count above 10. -/
theorem createApiKey_limit :
    (∀ (env : CreateKeyEnv) (name : String) (user : AuthUser) (n : Nat),
      env.body = some name → name.data.all Char.isWhitespace = false →
      env.user = some user →
      env.isUnique = .ok true → env.keyCount = .ok n → 10 ≤ n →
      createApiKey env =
        (.error "Maximum API key limit (10) reached" 400, none, [])) ∧
    (∀ (env : CreateKeyEnv) (args : CreateKeyArgs),
      (createApiKey env).2.1 = some args →
      ∃ n, env.keyCount = .ok n ∧ n < 10) := by
  constructor
  · intro env name user n hb htrim hu hiq hc h10
    simp only [createApiKey, hb]
    rw [if_neg (by simp [htrim])]
    simp only [hu, hiq, hc]
    rw [if_pos h10]
  · intro env args h
    rcases hb : env.body with _ | name
    · have h1 : (createApiKey env).2.1 = none := by
        simp only [createApiKey, hb]
      rw [h1] at h
      exact Option.noConfusion h
    · by_cases htrim : name.data.all Char.isWhitespace = true
      · have h1 : (createApiKey env).2.1 = none := by
          simp only [createApiKey, hb]
          rw [if_pos htrim]
        rw [h1] at h
        exact Option.noConfusion h
      · rcases hu : env.user with _ | user
        · have h1 : (createApiKey env).2.1 = none := by
            simp only [createApiKey, hb]
            rw [if_neg htrim]
            simp only [hu]
          rw [h1] at h
          exact Option.noConfusion h
        · rcases hiq : env.isUnique with bv | _
          · cases bv with
            | false =>
              have h1 : (createApiKey env).2.1 = none := by
                simp only [createApiKey, hb]
                rw [if_neg htrim]
                simp only [hu, hiq]
              rw [h1] at h
              exact Option.noConfusion h
            | true =>
              rcases hc : env.keyCount with n | _
              · by_cases h10 : 10 ≤ n
                · have h1 : (createApiKey env).2.1 = none := by
                    simp only [createApiKey, hb]
                    rw [if_neg htrim]
                    simp only [hu, hiq, hc]
                    rw [if_pos h10]
                  rw [h1] at h
                  exact Option.noConfusion h
                · exact ⟨n, rfl, by omega⟩
              · have h1 : (createApiKey env).2.1 = none := by
                  simp only [createApiKey, hb]
                  rw [if_neg htrim]
                  simp only [hu, hiq, hc]
                rw [h1] at h
                exact Option.noConfusion h
          · have h1 : (createApiKey env).2.1 = none := by
              simp only [createApiKey, hb]
              rw [if_neg htrim]
              simp only [hu, hiq]
            rw [h1] at h
            exact Option.noConfusion h

/-- A createApiKey environment: user at the 10-key ceiling, fresh name. -/
def envKeysFull : CreateKeyEnv :=
  ⟨some "new key", some authUser1, .ok true, .ok 10, "vsk_r", fun s => s,
    .ok "id1"⟩

/-- A createApiKey environment: user at the 10-key ceiling, duplicate
name. -/
def envKeysDup : CreateKeyEnv :=
  ⟨some "dup", some authUser1, .ok false, .ok 10, "vsk_r", fun s => s,
    .ok "id1"⟩

/-- Witness for C10 at the concrete ceiling environment. -/
theorem createApiKey_limit_witness :
    envKeysFull.body = some "new key" ∧
    ("new key" : String).data.all Char.isWhitespace = false ∧
    envKeysFull.keyCount = .ok 10 ∧
    createApiKey envKeysFull =
      (.error "Maximum API key limit (10) reached" 400, none, []) :=
  ⟨rfl, by decide, rfl,
    createApiKey_limit.1 envKeysFull "new key" authUser1 10 rfl (by decide)
      rfl rfl rfl (by decide)⟩

/-- Counterexample to C10 as stated: a user at 10 active keys submitting a
duplicate name gets `API key name already exists`, not
`Maximum API key limit (10) reached` — the uniqueness check runs first. -/
theorem createApiKey_limit_counterexample :
    envKeysDup.keyCount = .ok 10 ∧
    (createApiKey envKeysDup).1 = .error "API key name already exists" 400 ∧
    (createApiKey envKeysDup).1 ≠
      .error "Maximum API key limit (10) reached" 400 := by
  have hcomp : (createApiKey envKeysDup).1 =
      .error "API key name already exists" 400 := by decide
  refine ⟨rfl, hcomp, ?_⟩
  intro h
  rw [hcomp] at h
  injection h with h1 h2
  exact absurd h1 (by decide)

end VibeSDK
